import Mathlib

/-!
Shallow embedding of `asher` (src/main.rs): a system-stats sampler that turns
the probe state of the `sysinfo` library into a `SysStats` snapshot record.

Machine integers (`u64`) are modelled as `Nat` together with explicit wrapping
arithmetic modulo `2 ^ 64`, matching Rust release-mode semantics of `+`, `+=`
and unchecked `-` on `u64`.  `f32` values coming from the probe layer are
modelled as exact rationals; the one place where an IEEE special value can
arise in this program (the division computing the CPU mean) is modelled by the
`F32` type, which keeps NaN and the infinities apart from finite values.
Rounding of finite `f32` results is not modelled (the spec tolerance clause
absorbs it).
-/

namespace Asher

/-- The modulus of the Rust `u64` type. -/
def u64Mod : Nat := 2 ^ 64

/-- Wrapping `u64` addition, as Rust release-mode `+` / `+=` behaves on `u64`. -/
def wrapAdd (a b : Nat) : Nat := (a + b) % u64Mod

/-- Wrapping `u64` subtraction `a - b`, as Rust release-mode unchecked `-`
behaves on `u64` (two's-complement wraparound on underflow). -/
def wrapSub (a b : Nat) : Nat := (a + (u64Mod - b % u64Mod)) % u64Mod

/-- Rust `Iterator::sum::<u64>()`: a left fold of wrapping additions from 0. -/
def sumU64 (xs : List Nat) : Nat := xs.foldl wrapAdd 0

/-- The value of an `f32` expression, with the IEEE special values kept apart.
Finite values are exact rationals (rounding is not modelled). -/
inductive F32 where
  | nan : F32
  | posInf : F32
  | negInf : F32
  | val : ℚ → F32
deriving DecidableEq, Repr

/-- IEEE division of two finite `f32` values: zero by zero is NaN, a nonzero
value by zero is a signed infinity, anything else is the exact quotient. -/
def f32DivQ (a b : ℚ) : F32 :=
  if b = 0 then
    if a = 0 then F32.nan
    else if 0 < a then F32.posInf
    else F32.negInf
  else F32.val (a / b)

/-- One logical CPU core as the probe layer reports it (`Cpu::cpu_usage()`). -/
structure Cpu where
  cpu_usage : ℚ
deriving DecidableEq, Repr

/-- One disk as the probe layer reports it (`Disk` of sysinfo). -/
structure Disk where
  name : String
  mount_point : String
  total_space : Nat
  available_space : Nat
deriving DecidableEq, Repr

/-- Per-process cumulative disk I/O counters (`Process::disk_usage()`). -/
structure ProcessState where
  read_bytes : Nat
  written_bytes : Nat
deriving DecidableEq, Repr

/-- One network interface as the probe layer reports it: per-interval deltas
(`transmitted` / `received`) and cumulative counters (`total_transmitted` /
`total_received`). -/
structure NetworkData where
  transmitted : Nat
  received : Nat
  total_transmitted : Nat
  total_received : Nat
deriving DecidableEq, Repr

/-- The probe state (`sysinfo::System`) as the snapshot constructor reads it.
Lists keep the probe iteration order; `networks` pairs each interface name
with its data, and `processes` is the process map in enumeration order. -/
structure System where
  cpus : List Cpu
  total_memory : Nat
  used_memory : Nat
  free_memory : Nat
  available_memory : Nat
  total_swap : Nat
  used_swap : Nat
  free_swap : Nat
  disks : List Disk
  processes : List ProcessState
  networks : List (String × NetworkData)
deriving DecidableEq, Repr

/-- `struct MemStats` (src/main.rs lines 12-21). -/
structure MemStats where
  total : Nat
  used : Nat
  free : Nat
  available : Nat
  total_swap : Nat
  used_swap : Nat
  free_swap : Nat
deriving DecidableEq, Repr

/-- `struct CpuCoreStats` (src/main.rs lines 23-26). -/
structure CpuCoreStats where
  usage : ℚ
deriving DecidableEq, Repr

/-- `struct CpuStats` (src/main.rs lines 28-32). -/
structure CpuStats where
  usage : F32
  cpus : List CpuCoreStats
deriving DecidableEq, Repr

/-- `struct DiskPartStats` (src/main.rs lines 34-41). -/
structure DiskPartStats where
  name : String
  mount_point : String
  total : Nat
  free : Nat
  used : Nat
deriving DecidableEq, Repr

/-- `struct DiskStats` (src/main.rs lines 43-51). -/
structure DiskStats where
  total : Nat
  free : Nat
  used : Nat
  read : Nat
  write : Nat
  disks : List DiskPartStats
deriving DecidableEq, Repr

/-- `struct NetInterfaceStats` (src/main.rs lines 53-58). -/
structure NetInterfaceStats where
  name : String
  up : Nat
  down : Nat
deriving DecidableEq, Repr

/-- `struct NetStats` (src/main.rs lines 60-67). -/
structure NetStats where
  total_up : Nat
  total_down : Nat
  up : Nat
  down : Nat
  interfaces : List NetInterfaceStats
deriving DecidableEq, Repr

/-- `struct SysStats` (src/main.rs lines 69-75). -/
structure SysStats where
  mem : MemStats
  cpu : CpuStats
  disks : DiskStats
  net : NetStats
deriving DecidableEq, Repr

/-- The `DiskPartStats` literal built for one disk inside the `for` loop
(src/main.rs lines 111-117): `used` is the unchecked `u64` subtraction
`total_space - available_space`. -/
def diskPartOf (d : Disk) : DiskPartStats :=
  { name := d.name
    mount_point := d.mount_point
    total := d.total_space
    free := d.available_space
    used := wrapSub d.total_space d.available_space }

/-- The `for disk in value.disks()` accumulation loop (src/main.rs lines
110-122): build each part, add its fields into the running sums, push it. -/
def diskLoop (acc : DiskStats) : List Disk → DiskStats
  | [] => acc
  | d :: rest =>
    diskLoop
      { acc with
        total := wrapAdd acc.total (diskPartOf d).total
        free := wrapAdd acc.free (diskPartOf d).free
        used := wrapAdd acc.used (diskPartOf d).used
        disks := acc.disks ++ [diskPartOf d] } rest

/-- The `cfg(any(target_os = windows, target_os = freebsd))` block
(src/main.rs lines 124-130): only the first process yielded by
`value.processes().iter().next()` contributes its I/O counters. -/
def diskUsageFirst (acc : DiskStats) (ps : List ProcessState) : DiskStats :=
  match ps with
  | [] => acc
  | p :: _ =>
    { acc with
      read := wrapAdd acc.read p.read_bytes
      write := wrapAdd acc.write p.written_bytes }

/-- The block for all other targets (src/main.rs lines 131-137): every
enumerated process contributes its I/O counters to the running sums. -/
def diskUsageAll (acc : DiskStats) : List ProcessState → DiskStats
  | [] => acc
  | p :: rest =>
    diskUsageAll
      { acc with
        read := wrapAdd acc.read p.read_bytes
        write := wrapAdd acc.write p.written_bytes } rest

/-- The compile-time target platform, selecting between the two cfg blocks. -/
inductive TargetOs where
  | windows : TargetOs
  | freebsd : TargetOs
  | linux : TargetOs
  | macos : TargetOs
  | other : TargetOs
deriving DecidableEq, Repr

/-- Whether `cfg(any(target_os = windows, target_os = freebsd))` holds. -/
def TargetOs.cfgFirstOnly : TargetOs → Bool
  | .windows => true
  | .freebsd => true
  | _ => false

/-- `impl From<&System> for SysStats` (src/main.rs lines 77-169),
parameterised by the compile-time target platform for the two cfg blocks.
`total_cpu_usage` is the f32 quotient of the core-usage sum by
`value.cpus().len() as f32`. -/
def sysStatsFrom (os : TargetOs) (value : System) : SysStats :=
  let total_cpu_usage :=
    f32DivQ (value.cpus.map Cpu.cpu_usage).sum (value.cpus.length : ℚ)
  { mem :=
      { total := value.total_memory
        used := value.used_memory
        free := value.free_memory
        available := value.available_memory
        total_swap := value.total_swap
        used_swap := value.used_swap
        free_swap := value.free_swap }
    cpu :=
      { usage := total_cpu_usage
        cpus := value.cpus.map (fun cpu => { usage := cpu.cpu_usage }) }
    disks :=
      let base :=
        diskLoop
          { total := 0, free := 0, used := 0, read := 0, write := 0
            disks := [] } value.disks
      if os.cfgFirstOnly then diskUsageFirst base value.processes
      else diskUsageAll base value.processes
    net :=
      { total_up := sumU64 (value.networks.map (fun p => p.2.total_transmitted))
        total_down := sumU64 (value.networks.map (fun p => p.2.total_received))
        up := sumU64 (value.networks.map (fun p => p.2.transmitted))
        down := sumU64 (value.networks.map (fun p => p.2.received))
        interfaces := value.networks.map (fun p =>
          { name := p.1, up := p.2.transmitted, down := p.2.received }) } }

/-- The snapshot operation `SysStats::from(&*system)` in state-passing form.
The Rust function takes the probe state by shared reference (`&System`) and
uses no interior mutability, so the state it leaves behind is the state it was
given. -/
def snapshot (os : TargetOs) (s : System) : SysStats × System :=
  (sysStatsFrom os s, s)

/-- `std::time::Duration::from_secs_f32`, which panics (modelled as
`Except.error` with the panic message) when the seconds value is negative or
too large for a `Duration`; a NaN input is not representable in the rational
model.  On success, the duration in seconds. -/
def durationFromSecsF32 (secs : ℚ) : Except String ℚ :=
  if secs < 0 then
    Except.error "can not convert float seconds to Duration: value is negative"
  else if (u64Mod : ℚ) ≤ secs then
    Except.error "can not convert float seconds to Duration: value is either too big or NaN"
  else Except.ok secs

/-- One iteration of the body of `loop_command` (src/main.rs lines 204-213):
sleep for `Duration::from_secs_f32(interval)`, refresh the probe state, build
and emit one snapshot.  A panic in the duration conversion aborts the
iteration with the panic message; otherwise the emitted record and the
refreshed state are returned. -/
def loopIteration (os : TargetOs) (refresh : System → System) (interval : ℚ)
    (s : System) : Except String (SysStats × System) :=
  match durationFromSecsF32 interval with
  | Except.error e => Except.error e
  | Except.ok _ => Except.ok (sysStatsFrom os (refresh s), refresh s)

/-- A probe state with no CPU cores (the empty-`cpus` edge case). -/
def sysNoCpus : System :=
  { cpus := []
    total_memory := 1000, used_memory := 400, free_memory := 600
    available_memory := 550
    total_swap := 100, used_swap := 10, free_swap := 90
    disks := []
    processes := []
    networks := [] }

/-- A small concrete probe state exercising every category, including an
idle network interface with zero deltas. -/
def sysSample : System :=
  { cpus := [⟨10⟩, ⟨30⟩]
    total_memory := 1000, used_memory := 400, free_memory := 600
    available_memory := 550
    total_swap := 100, used_swap := 10, free_swap := 90
    disks := [⟨"sda1", "/", 500, 200⟩, ⟨"sdb1", "/home", 300, 300⟩]
    processes := [⟨11, 13⟩, ⟨17, 19⟩]
    networks :=
      [("eth0", ⟨5, 7, 100, 200⟩), ("lo", ⟨0, 0, 0, 0⟩)] }

/-! ## Helper lemmas -/

lemma u64Mod_pos : 0 < u64Mod := by norm_num [u64Mod]

lemma wrapAdd_lt (a b : Nat) : wrapAdd a b < u64Mod :=
  Nat.mod_lt _ u64Mod_pos

/-- A left fold of wrapping additions computes the exact sum modulo `2 ^ 64`. -/
lemma foldl_wrapAdd (xs : List Nat) : ∀ a : Nat, a < u64Mod →
    List.foldl wrapAdd a xs = (a + xs.sum) % u64Mod := by
  induction xs with
  | nil =>
    intro a ha
    simp [Nat.mod_eq_of_lt ha]
  | cons x xs ih =>
    intro a ha
    rw [List.foldl_cons, ih (wrapAdd a x) (wrapAdd_lt a x), List.sum_cons]
    show ((a + x) % u64Mod + _) % u64Mod = _
    rw [Nat.mod_add_mod, Nat.add_assoc]

lemma sumU64_eq_sum_mod (xs : List Nat) : sumU64 xs = xs.sum % u64Mod := by
  simpa [sumU64] using foldl_wrapAdd xs 0 u64Mod_pos

/-- When the subtrahend is bounded by the minuend and the minuend fits in a
`u64`, the wrapping subtraction agrees with the exact one. -/
lemma wrapSub_eq_sub (a b : Nat) (hba : b ≤ a) (ha : a < u64Mod) :
    wrapSub a b = a - b := by
  have hM : u64Mod = 18446744073709551616 := by norm_num [u64Mod]
  rw [hM] at ha
  unfold wrapSub
  rw [hM]
  omega

lemma diskLoop_disks (l : List Disk) : ∀ acc : DiskStats,
    (diskLoop acc l).disks = acc.disks ++ l.map diskPartOf := by
  induction l with
  | nil => intro acc; simp [diskLoop]
  | cons d rest ih =>
    intro acc
    rw [diskLoop, ih]
    simp

lemma diskLoop_total (l : List Disk) : ∀ acc : DiskStats,
    (diskLoop acc l).total =
      List.foldl wrapAdd acc.total (l.map Disk.total_space) := by
  induction l with
  | nil => intro acc; simp [diskLoop]
  | cons d rest ih =>
    intro acc
    rw [diskLoop, ih]
    rfl

lemma diskLoop_free (l : List Disk) : ∀ acc : DiskStats,
    (diskLoop acc l).free =
      List.foldl wrapAdd acc.free (l.map Disk.available_space) := by
  induction l with
  | nil => intro acc; simp [diskLoop]
  | cons d rest ih =>
    intro acc
    rw [diskLoop, ih]
    rfl

lemma diskLoop_used (l : List Disk) : ∀ acc : DiskStats,
    (diskLoop acc l).used =
      List.foldl wrapAdd acc.used
        (l.map (fun d => wrapSub d.total_space d.available_space)) := by
  induction l with
  | nil => intro acc; simp [diskLoop]
  | cons d rest ih =>
    intro acc
    rw [diskLoop, ih]
    rfl

lemma diskLoop_read (l : List Disk) : ∀ acc : DiskStats,
    (diskLoop acc l).read = acc.read := by
  induction l with
  | nil => intro acc; rfl
  | cons d rest ih => intro acc; rw [diskLoop, ih]

lemma diskLoop_write (l : List Disk) : ∀ acc : DiskStats,
    (diskLoop acc l).write = acc.write := by
  induction l with
  | nil => intro acc; rfl
  | cons d rest ih => intro acc; rw [diskLoop, ih]

lemma diskUsageFirst_disks (acc : DiskStats) (ps : List ProcessState) :
    (diskUsageFirst acc ps).disks = acc.disks := by
  cases ps <;> rfl

lemma diskUsageFirst_total (acc : DiskStats) (ps : List ProcessState) :
    (diskUsageFirst acc ps).total = acc.total := by
  cases ps <;> rfl

lemma diskUsageFirst_free (acc : DiskStats) (ps : List ProcessState) :
    (diskUsageFirst acc ps).free = acc.free := by
  cases ps <;> rfl

lemma diskUsageFirst_used (acc : DiskStats) (ps : List ProcessState) :
    (diskUsageFirst acc ps).used = acc.used := by
  cases ps <;> rfl

lemma diskUsageAll_disks (ps : List ProcessState) : ∀ acc : DiskStats,
    (diskUsageAll acc ps).disks = acc.disks := by
  induction ps with
  | nil => intro acc; rfl
  | cons p rest ih => intro acc; rw [diskUsageAll, ih]

lemma diskUsageAll_total (ps : List ProcessState) : ∀ acc : DiskStats,
    (diskUsageAll acc ps).total = acc.total := by
  induction ps with
  | nil => intro acc; rfl
  | cons p rest ih => intro acc; rw [diskUsageAll, ih]

lemma diskUsageAll_free (ps : List ProcessState) : ∀ acc : DiskStats,
    (diskUsageAll acc ps).free = acc.free := by
  induction ps with
  | nil => intro acc; rfl
  | cons p rest ih => intro acc; rw [diskUsageAll, ih]

lemma diskUsageAll_used (ps : List ProcessState) : ∀ acc : DiskStats,
    (diskUsageAll acc ps).used = acc.used := by
  induction ps with
  | nil => intro acc; rfl
  | cons p rest ih => intro acc; rw [diskUsageAll, ih]

lemma diskUsageAll_read (ps : List ProcessState) : ∀ acc : DiskStats,
    (diskUsageAll acc ps).read =
      List.foldl wrapAdd acc.read (ps.map ProcessState.read_bytes) := by
  induction ps with
  | nil => intro acc; rfl
  | cons p rest ih =>
    intro acc
    rw [diskUsageAll, ih]
    rfl

lemma diskUsageAll_write (ps : List ProcessState) : ∀ acc : DiskStats,
    (diskUsageAll acc ps).write =
      List.foldl wrapAdd acc.write (ps.map ProcessState.written_bytes) := by
  induction ps with
  | nil => intro acc; rfl
  | cons p rest ih =>
    intro acc
    rw [diskUsageAll, ih]
    rfl

/-- The emitted per-disk list is the probe disk list mapped through
`diskPartOf`, on every platform. -/
lemma sysStatsFrom_disks_disks (os : TargetOs) (s : System) :
    (sysStatsFrom os s).disks.disks = s.disks.map diskPartOf := by
  unfold sysStatsFrom
  cases h : os.cfgFirstOnly <;>
    simp [h, diskUsageFirst_disks, diskUsageAll_disks, diskLoop_disks]

lemma sysStatsFrom_disks_total (os : TargetOs) (s : System) :
    (sysStatsFrom os s).disks.total =
      (s.disks.map Disk.total_space).sum % u64Mod := by
  unfold sysStatsFrom
  cases h : os.cfgFirstOnly <;>
    simp [h, diskUsageFirst_total, diskUsageAll_total, diskLoop_total,
      foldl_wrapAdd _ 0 u64Mod_pos]

lemma sysStatsFrom_disks_free (os : TargetOs) (s : System) :
    (sysStatsFrom os s).disks.free =
      (s.disks.map Disk.available_space).sum % u64Mod := by
  unfold sysStatsFrom
  cases h : os.cfgFirstOnly <;>
    simp [h, diskUsageFirst_free, diskUsageAll_free, diskLoop_free,
      foldl_wrapAdd _ 0 u64Mod_pos]

lemma sysStatsFrom_disks_used (os : TargetOs) (s : System) :
    (sysStatsFrom os s).disks.used =
      (s.disks.map (fun d => wrapSub d.total_space d.available_space)).sum
        % u64Mod := by
  unfold sysStatsFrom
  cases h : os.cfgFirstOnly <;>
    simp [h, diskUsageFirst_used, diskUsageAll_used, diskLoop_used,
      foldl_wrapAdd _ 0 u64Mod_pos]

lemma sysStatsFrom_cpu_usage (os : TargetOs) (s : System) :
    (sysStatsFrom os s).cpu.usage =
      f32DivQ (s.cpus.map Cpu.cpu_usage).sum (s.cpus.length : ℚ) := rfl

lemma sysStatsFrom_cpu_cpus (os : TargetOs) (s : System) :
    (sysStatsFrom os s).cpu.cpus =
      s.cpus.map (fun cpu => { usage := cpu.cpu_usage }) := rfl

lemma sysStatsFrom_net (os : TargetOs) (s : System) :
    (sysStatsFrom os s).net =
      { total_up := sumU64 (s.networks.map (fun p => p.2.total_transmitted))
        total_down := sumU64 (s.networks.map (fun p => p.2.total_received))
        up := sumU64 (s.networks.map (fun p => p.2.transmitted))
        down := sumU64 (s.networks.map (fun p => p.2.received))
        interfaces := s.networks.map (fun p =>
          { name := p.1, up := p.2.transmitted, down := p.2.received }) } := rfl

lemma cfgFirstOnly_iff (os : TargetOs) :
    os.cfgFirstOnly = true ↔ (os = TargetOs.windows ∨ os = TargetOs.freebsd) := by
  cases os <;> simp [TargetOs.cfgFirstOnly]

/-! ## Claim theorems -/

/-- C1 (counterexample): on a probe state with no CPU cores the snapshot's
`cpu.usage` is not `0.0` — the constructor divides the zero sum by the zero
length, giving NaN, so the claim fails as stated. -/
theorem cpu_usage_empty_not_zero :
    (sysStatsFrom TargetOs.linux sysNoCpus).cpu.usage ≠ F32.val 0 := by
  decide

/-- C1 (amended): whenever the probe state has an empty `cpus` list, the
emitted `cpu.usage` is the f32 quotient `0.0 / 0.0`, i.e. NaN — not `0.0`. -/
theorem cpu_usage_empty_is_nan (os : TargetOs) (s : System)
    (h : s.cpus = []) :
    (sysStatsFrom os s).cpu.usage = F32.nan := by
  rw [sysStatsFrom_cpu_usage, h]
  simp [f32DivQ]

/-- C1 witness: the amended statement evaluated on the concrete coreless
probe state. -/
theorem cpu_usage_empty_is_nan_witness :
    sysNoCpus.cpus = [] ∧
    (sysStatsFrom TargetOs.linux sysNoCpus).cpu.usage = F32.nan :=
  ⟨rfl, cpu_usage_empty_is_nan TargetOs.linux sysNoCpus rfl⟩

/-- C3: in every emitted snapshot with a non-empty `cpus` array, `cpu.usage`
is exactly the arithmetic mean of the emitted per-core usages (finite f32
values are modelled exactly, so the spec's tolerance is met with ε = 0). -/
theorem cpu_usage_mean (os : TargetOs) (s : System)
    (h : (sysStatsFrom os s).cpu.cpus ≠ []) :
    (sysStatsFrom os s).cpu.usage =
      F32.val (((sysStatsFrom os s).cpu.cpus.map CpuCoreStats.usage).sum /
        ((sysStatsFrom os s).cpu.cpus.length : ℚ)) := by
  rw [sysStatsFrom_cpu_cpus] at h ⊢
  rw [sysStatsFrom_cpu_usage]
  have hne : s.cpus ≠ [] := by
    intro hnil
    exact h (by simp [hnil])
  have hlen : ((s.cpus.length : ℚ)) ≠ 0 := by
    exact_mod_cast fun hl => hne (List.length_eq_zero.mp hl)
  have hmap : (s.cpus.map (fun cpu =>
      ({ usage := cpu.cpu_usage } : CpuCoreStats))).map CpuCoreStats.usage =
      s.cpus.map Cpu.cpu_usage := by
    simp [List.map_map]
  rw [hmap]
  simp [f32DivQ, hlen]

/-- C3 witness: the mean law evaluated on the concrete two-core probe state. -/
theorem cpu_usage_mean_witness :
    (sysStatsFrom TargetOs.linux sysSample).cpu.cpus ≠ [] ∧
    (sysStatsFrom TargetOs.linux sysSample).cpu.usage =
      F32.val (((sysStatsFrom TargetOs.linux sysSample).cpu.cpus.map
          CpuCoreStats.usage).sum /
        ((sysStatsFrom TargetOs.linux sysSample).cpu.cpus.length : ℚ)) :=
  ⟨by decide, cpu_usage_mean TargetOs.linux sysSample (by decide)⟩

/-- C2 (counterexample): invoking the loop body with interval `-1.0` panics in
`Duration::from_secs_f32` before any snapshot is produced — the program does
crash, so the claim fails as stated. -/
theorem loop_negative_interval_panics :
    loopIteration TargetOs.linux id (-1) sysNoCpus =
      Except.error "can not convert float seconds to Duration: value is negative" := by
  norm_num [loopIteration, durationFromSecsF32]

/-- C2 (amended): for an interval ≤ 0, the loop body emits a snapshot only
when the interval is exactly 0 (a zero-length sleep); a strictly negative
interval panics in `Duration::from_secs_f32` and no snapshot is emitted. -/
theorem loop_nonpositive_interval (os : TargetOs) (refresh : System → System)
    (interval : ℚ) (s : System) (h : interval ≤ 0) :
    loopIteration os refresh interval s =
      if interval < 0 then
        Except.error "can not convert float seconds to Duration: value is negative"
      else Except.ok (sysStatsFrom os (refresh s), refresh s) := by
  unfold loopIteration durationFromSecsF32
  rcases lt_or_eq_of_le h with hlt | heq
  · simp [hlt]
  · subst heq
    have hneg : ¬ ((0 : ℚ) < 0) := by norm_num
    have hbig : ¬ ((u64Mod : ℚ) ≤ 0) := by norm_num [u64Mod]
    simp [hneg, hbig]

/-- C2 witness: the amended statement evaluated at interval `-1`. -/
theorem loop_nonpositive_interval_witness :
    ((-1 : ℚ) ≤ 0) ∧
    loopIteration TargetOs.linux id (-1) sysSample =
      (if (-1 : ℚ) < 0 then
        Except.error "can not convert float seconds to Duration: value is negative"
      else Except.ok (sysStatsFrom TargetOs.linux (id sysSample), id sysSample)) :=
  ⟨by norm_num, loop_nonpositive_interval TargetOs.linux id (-1) sysSample (by norm_num)⟩

/-- C4: in every emitted snapshot built from a probe state whose disks have
`available_space ≤ total_space` (both `u64` values), each emitted part
satisfies `used + free = total`, with `used` computed as the exact
subtraction `total - free`. -/
theorem disk_part_law (os : TargetOs) (s : System) (p : DiskPartStats)
    (hd : ∀ d ∈ s.disks,
      d.available_space ≤ d.total_space ∧ d.total_space < u64Mod)
    (hp : p ∈ (sysStatsFrom os s).disks.disks) :
    p.used + p.free = p.total ∧ p.used = p.total - p.free := by
  rw [sysStatsFrom_disks_disks] at hp
  obtain ⟨d, hdmem, rfl⟩ := List.mem_map.mp hp
  obtain ⟨h1, h2⟩ := hd d hdmem
  have hsub := wrapSub_eq_sub d.total_space d.available_space h1 h2
  refine ⟨?_, ?_⟩
  · show wrapSub d.total_space d.available_space + d.available_space
      = d.total_space
    omega
  · exact hsub

/-- C4 witness: the per-part law evaluated on the first concrete disk. -/
theorem disk_part_law_witness :
    (∀ d ∈ sysSample.disks,
      d.available_space ≤ d.total_space ∧ d.total_space < u64Mod) ∧
    diskPartOf ⟨"sda1", "/", 500, 200⟩ ∈
      (sysStatsFrom TargetOs.linux sysSample).disks.disks ∧
    ((diskPartOf ⟨"sda1", "/", 500, 200⟩).used +
        (diskPartOf ⟨"sda1", "/", 500, 200⟩).free =
        (diskPartOf ⟨"sda1", "/", 500, 200⟩).total ∧
      (diskPartOf ⟨"sda1", "/", 500, 200⟩).used =
        (diskPartOf ⟨"sda1", "/", 500, 200⟩).total -
          (diskPartOf ⟨"sda1", "/", 500, 200⟩).free) :=
  ⟨by decide, by decide,
    disk_part_law TargetOs.linux sysSample _ (by decide) (by decide)⟩

/-- C5: in every emitted snapshot whose column sums fit in a `u64` (no
wraparound), the aggregate `disks.total`, `disks.free` and `disks.used`
equal the element-wise sums over the emitted `disks` array. -/
theorem disk_sum_law (os : TargetOs) (s : System)
    (ht : (((sysStatsFrom os s).disks.disks.map DiskPartStats.total).sum
      < u64Mod))
    (hf : (((sysStatsFrom os s).disks.disks.map DiskPartStats.free).sum
      < u64Mod))
    (hu : (((sysStatsFrom os s).disks.disks.map DiskPartStats.used).sum
      < u64Mod)) :
    (sysStatsFrom os s).disks.total =
      ((sysStatsFrom os s).disks.disks.map DiskPartStats.total).sum ∧
    (sysStatsFrom os s).disks.free =
      ((sysStatsFrom os s).disks.disks.map DiskPartStats.free).sum ∧
    (sysStatsFrom os s).disks.used =
      ((sysStatsFrom os s).disks.disks.map DiskPartStats.used).sum := by
  rw [sysStatsFrom_disks_disks] at ht hf hu ⊢
  have hmt : (s.disks.map diskPartOf).map DiskPartStats.total =
      s.disks.map Disk.total_space := by
    simp [List.map_map, diskPartOf]
  have hmf : (s.disks.map diskPartOf).map DiskPartStats.free =
      s.disks.map Disk.available_space := by
    simp [List.map_map, diskPartOf]
  have hmu : (s.disks.map diskPartOf).map DiskPartStats.used =
      s.disks.map (fun d => wrapSub d.total_space d.available_space) := by
    simp [List.map_map, diskPartOf]
  rw [hmt] at ht
  rw [hmf] at hf
  rw [hmu] at hu
  refine ⟨?_, ?_, ?_⟩
  · rw [sysStatsFrom_disks_total, hmt, Nat.mod_eq_of_lt ht]
  · rw [sysStatsFrom_disks_free, hmf, Nat.mod_eq_of_lt hf]
  · rw [sysStatsFrom_disks_used, hmu, Nat.mod_eq_of_lt hu]

/-- C5 witness: the sum law evaluated on the concrete two-disk probe state. -/
theorem disk_sum_law_witness :
    ((((sysStatsFrom TargetOs.linux sysSample).disks.disks.map
        DiskPartStats.total).sum < u64Mod)) ∧
    ((((sysStatsFrom TargetOs.linux sysSample).disks.disks.map
        DiskPartStats.free).sum < u64Mod)) ∧
    ((((sysStatsFrom TargetOs.linux sysSample).disks.disks.map
        DiskPartStats.used).sum < u64Mod)) ∧
    ((sysStatsFrom TargetOs.linux sysSample).disks.total =
      ((sysStatsFrom TargetOs.linux sysSample).disks.disks.map
        DiskPartStats.total).sum ∧
    (sysStatsFrom TargetOs.linux sysSample).disks.free =
      ((sysStatsFrom TargetOs.linux sysSample).disks.disks.map
        DiskPartStats.free).sum ∧
    (sysStatsFrom TargetOs.linux sysSample).disks.used =
      ((sysStatsFrom TargetOs.linux sysSample).disks.disks.map
        DiskPartStats.used).sum) :=
  ⟨by decide, by decide, by decide,
    disk_sum_law TargetOs.linux sysSample (by decide) (by decide) (by decide)⟩

/-- C6: in every emitted snapshot whose four network sums fit in a `u64` (no
wraparound), `net.up` and `net.down` equal the sums of the per-interface
deltas recorded in `interfaces`, and `net.total_up` / `net.total_down` equal
the sums of the cumulative transmitted / received counters over all probe
interfaces. -/
theorem net_sum_law (os : TargetOs) (s : System)
    (hu : (s.networks.map (fun p => p.2.transmitted)).sum < u64Mod)
    (hd : (s.networks.map (fun p => p.2.received)).sum < u64Mod)
    (htu : (s.networks.map (fun p => p.2.total_transmitted)).sum < u64Mod)
    (htd : (s.networks.map (fun p => p.2.total_received)).sum < u64Mod) :
    (sysStatsFrom os s).net.up =
      ((sysStatsFrom os s).net.interfaces.map NetInterfaceStats.up).sum ∧
    (sysStatsFrom os s).net.down =
      ((sysStatsFrom os s).net.interfaces.map NetInterfaceStats.down).sum ∧
    (sysStatsFrom os s).net.total_up =
      (s.networks.map (fun p => p.2.total_transmitted)).sum ∧
    (sysStatsFrom os s).net.total_down =
      (s.networks.map (fun p => p.2.total_received)).sum := by
  rw [sysStatsFrom_net]
  have hiu : ((s.networks.map (fun p =>
      ({ name := p.1, up := p.2.transmitted, down := p.2.received } :
        NetInterfaceStats))).map NetInterfaceStats.up) =
      s.networks.map (fun p => p.2.transmitted) := by
    simp [List.map_map]
  have hid : ((s.networks.map (fun p =>
      ({ name := p.1, up := p.2.transmitted, down := p.2.received } :
        NetInterfaceStats))).map NetInterfaceStats.down) =
      s.networks.map (fun p => p.2.received) := by
    simp [List.map_map]
  refine ⟨?_, ?_, ?_, ?_⟩
  · show sumU64 _ = _
    rw [hiu, sumU64_eq_sum_mod, Nat.mod_eq_of_lt hu]
  · show sumU64 _ = _
    rw [hid, sumU64_eq_sum_mod, Nat.mod_eq_of_lt hd]
  · show sumU64 _ = _
    rw [sumU64_eq_sum_mod, Nat.mod_eq_of_lt htu]
  · show sumU64 _ = _
    rw [sumU64_eq_sum_mod, Nat.mod_eq_of_lt htd]

/-- C6 witness: the network sum laws evaluated on the concrete probe state
with two interfaces. -/
theorem net_sum_law_witness :
    ((sysSample.networks.map (fun p => p.2.transmitted)).sum < u64Mod) ∧
    ((sysSample.networks.map (fun p => p.2.received)).sum < u64Mod) ∧
    ((sysSample.networks.map (fun p => p.2.total_transmitted)).sum < u64Mod) ∧
    ((sysSample.networks.map (fun p => p.2.total_received)).sum < u64Mod) ∧
    ((sysStatsFrom TargetOs.linux sysSample).net.up =
      ((sysStatsFrom TargetOs.linux sysSample).net.interfaces.map
        NetInterfaceStats.up).sum ∧
    (sysStatsFrom TargetOs.linux sysSample).net.down =
      ((sysStatsFrom TargetOs.linux sysSample).net.interfaces.map
        NetInterfaceStats.down).sum ∧
    (sysStatsFrom TargetOs.linux sysSample).net.total_up =
      (sysSample.networks.map (fun p => p.2.total_transmitted)).sum ∧
    (sysStatsFrom TargetOs.linux sysSample).net.total_down =
      (sysSample.networks.map (fun p => p.2.total_received)).sum) :=
  ⟨by decide, by decide, by decide, by decide,
    net_sum_law TargetOs.linux sysSample
      (by decide) (by decide) (by decide) (by decide)⟩

/-- C7: the `disks.read` / `disks.write` aggregates follow the compile-time
platform policy — on windows and freebsd only the first process yielded by
the probe enumerator contributes its counters, on every other target the
counters of all enumerated processes are summed (stated with no-wraparound
side conditions on the sums). -/
theorem disk_read_write_policy (s : System) (os : TargetOs)
    (hr : (s.processes.map ProcessState.read_bytes).sum < u64Mod)
    (hw : (s.processes.map ProcessState.written_bytes).sum < u64Mod) :
    ((os = TargetOs.windows ∨ os = TargetOs.freebsd) →
      (sysStatsFrom os s).disks.read =
        ((s.processes.map ProcessState.read_bytes).headD 0) ∧
      (sysStatsFrom os s).disks.write =
        ((s.processes.map ProcessState.written_bytes).headD 0)) ∧
    (¬(os = TargetOs.windows ∨ os = TargetOs.freebsd) →
      (sysStatsFrom os s).disks.read =
        (s.processes.map ProcessState.read_bytes).sum ∧
      (sysStatsFrom os s).disks.write =
        (s.processes.map ProcessState.written_bytes).sum) := by
  constructor
  · intro hos
    have hcfg : os.cfgFirstOnly = true := (cfgFirstOnly_iff os).mpr hos
    unfold sysStatsFrom
    simp only [hcfg, if_true]
    cases hps : s.processes with
    | nil =>
      constructor
      · show (diskUsageFirst _ []).read = _
        simp [diskUsageFirst, diskLoop_read]
      · show (diskUsageFirst _ []).write = _
        simp [diskUsageFirst, diskLoop_write]
    | cons p rest =>
      have hpr : p.read_bytes < u64Mod := by
        refine lt_of_le_of_lt ?_ hr
        rw [hps]
        exact List.single_le_sum (fun x _ => Nat.zero_le x) _
          (by simp)
      have hpw : p.written_bytes < u64Mod := by
        refine lt_of_le_of_lt ?_ hw
        rw [hps]
        exact List.single_le_sum (fun x _ => Nat.zero_le x) _
          (by simp)
      constructor
      · show (diskUsageFirst _ (p :: rest)).read = _
        simp [diskUsageFirst, diskLoop_read, wrapAdd, Nat.mod_eq_of_lt hpr]
      · show (diskUsageFirst _ (p :: rest)).write = _
        simp [diskUsageFirst, diskLoop_write, wrapAdd, Nat.mod_eq_of_lt hpw]
  · intro hos
    have hcfg : os.cfgFirstOnly = false := by
      rcases Bool.eq_false_or_eq_true os.cfgFirstOnly with hb | hb
      · exact absurd ((cfgFirstOnly_iff os).mp hb) hos
      · exact hb
    unfold sysStatsFrom
    simp only [hcfg, if_false, Bool.false_eq_true]
    constructor
    · show (diskUsageAll _ s.processes).read = _
      rw [diskUsageAll_read, diskLoop_read]
      show List.foldl wrapAdd 0 _ = _
      rw [foldl_wrapAdd _ 0 u64Mod_pos, Nat.zero_add, Nat.mod_eq_of_lt hr]
    · show (diskUsageAll _ s.processes).write = _
      rw [diskUsageAll_write, diskLoop_write]
      show List.foldl wrapAdd 0 _ = _
      rw [foldl_wrapAdd _ 0 u64Mod_pos, Nat.zero_add, Nat.mod_eq_of_lt hw]

/-- C7 witness: the policy evaluated on the concrete probe state, once for a
first-process-only target (windows) and once for a sum-all target (linux). -/
theorem disk_read_write_policy_witness :
    ((sysSample.processes.map ProcessState.read_bytes).sum < u64Mod) ∧
    ((sysSample.processes.map ProcessState.written_bytes).sum < u64Mod) ∧
    ((sysStatsFrom TargetOs.windows sysSample).disks.read =
        ((sysSample.processes.map ProcessState.read_bytes).headD 0) ∧
      (sysStatsFrom TargetOs.windows sysSample).disks.write =
        ((sysSample.processes.map ProcessState.written_bytes).headD 0)) ∧
    ((sysStatsFrom TargetOs.linux sysSample).disks.read =
        (sysSample.processes.map ProcessState.read_bytes).sum ∧
      (sysStatsFrom TargetOs.linux sysSample).disks.write =
        (sysSample.processes.map ProcessState.written_bytes).sum) :=
  ⟨by decide, by decide,
    (disk_read_write_policy sysSample TargetOs.windows
      (by decide) (by decide)).1 (Or.inl rfl),
    (disk_read_write_policy sysSample TargetOs.linux
      (by decide) (by decide)).2 (by decide)⟩

/-- C8: every interface of the probe state appears verbatim (name and both
deltas) as an element of the emitted `interfaces` array; nothing is
filtered, so zero-delta interfaces appear too. -/
theorem net_interfaces_complete (os : TargetOs) (s : System)
    (name : String) (net : NetworkData)
    (h : (name, net) ∈ s.networks) :
    NetInterfaceStats.mk name net.transmitted net.received ∈
      (sysStatsFrom os s).net.interfaces := by
  have hif : (sysStatsFrom os s).net.interfaces = s.networks.map (fun p =>
      { name := p.1, up := p.2.transmitted, down := p.2.received }) := rfl
  rw [hif]
  exact List.mem_map_of_mem _ h

/-- C8 witness: the zero-traffic loopback interface of the concrete probe
state appears in the emitted array. -/
theorem net_interfaces_complete_witness :
    ("lo", (⟨0, 0, 0, 0⟩ : NetworkData)) ∈ sysSample.networks ∧
    NetInterfaceStats.mk "lo" 0 0 ∈
      (sysStatsFrom TargetOs.linux sysSample).net.interfaces :=
  ⟨by decide,
    net_interfaces_complete TargetOs.linux sysSample "lo" ⟨0, 0, 0, 0⟩
      (by decide)⟩

/-- C9: the snapshot operation is a pure read of the probe state — in the
state-passing embedding of `SysStats::from(&*system)` the state returned
alongside the record is exactly the state given, and the record is the pure
function `sysStatsFrom` of that state. -/
theorem snapshot_preserves_state (os : TargetOs) (s : System) :
    (snapshot os s).2 = s ∧ (snapshot os s).1 = sysStatsFrom os s :=
  ⟨rfl, rfl⟩

/-- C10: under the probe-layer precondition `available_space ≤ total_space`
(with `total_space` a `u64` value), the unchecked subtraction performed for
each disk does not wrap: it equals the exact difference, the part built from
it reaches the emitted snapshot, and its `used` field is the well-defined
byte count `total_space - available_space ≤ total_space`. -/
theorem disk_used_no_underflow (os : TargetOs) (s : System) (d : Disk)
    (hd : d ∈ s.disks)
    (h1 : d.available_space ≤ d.total_space)
    (h2 : d.total_space < u64Mod) :
    wrapSub d.total_space d.available_space =
      d.total_space - d.available_space ∧
    diskPartOf d ∈ (sysStatsFrom os s).disks.disks ∧
    (diskPartOf d).used = d.total_space - d.available_space ∧
    (diskPartOf d).used ≤ d.total_space := by
  have hsub := wrapSub_eq_sub d.total_space d.available_space h1 h2
  refine ⟨hsub, ?_, hsub, ?_⟩
  · rw [sysStatsFrom_disks_disks]
    exact List.mem_map_of_mem _ hd
  · show wrapSub d.total_space d.available_space ≤ d.total_space
    rw [hsub]
    exact Nat.sub_le _ _

/-- C10 witness: the no-underflow property evaluated on the first concrete
disk. -/
theorem disk_used_no_underflow_witness :
    (⟨"sda1", "/", 500, 200⟩ : Disk) ∈ sysSample.disks ∧
    (200 ≤ 500 ∧ (500 : Nat) < u64Mod) ∧
    (wrapSub 500 200 = 300 ∧
      diskPartOf ⟨"sda1", "/", 500, 200⟩ ∈
        (sysStatsFrom TargetOs.linux sysSample).disks.disks ∧
      (diskPartOf ⟨"sda1", "/", 500, 200⟩).used = 300 ∧
      (diskPartOf ⟨"sda1", "/", 500, 200⟩).used ≤ 500) :=
  ⟨by decide, ⟨by decide, by decide⟩,
    disk_used_no_underflow TargetOs.linux sysSample ⟨"sda1", "/", 500, 200⟩
      (by decide) (by decide) (by decide)⟩

end Asher
